import Mathlib

/-!
Verification development for the measurement comparison app (src/app/flagging.py).

The script collects up to five anthropometric measurements, compares them with a
baseline visit loaded from a CSV keyed by a record identifier, classifies each
measurement into a Green/Yellow/Red tier, appends a row to a spreadsheet and
sends an alert email when any tier is non-Green.  The embedding below models the
per-submission control flow of the script as a pure function `runApp` from the
form input and the baseline table to an `Outcome`.  Numeric values are modelled
as rationals; Python float() parsing is modelled on its decimal fragment
(optional sign, digits, at most one point).  The weight deviation divides
numpy scalars (the baseline value comes from pandas `.values[0]`), so division
by zero yields an infinity or NaN with a RuntimeWarning instead of raising;
these special values are modelled by `NpFloat`.
-/

deriving instance DecidableEq for Except

namespace Casana

/-- Model of Python abs() on a rational value. -/
def absQ (x : ℚ) : ℚ :=
  if x < 0 then -x else x

/-- Workflow mode selected in the radio control at the top of the script. -/
inductive Mode
  | comparison
  | remeasure
deriving DecidableEq, Repr

/-- Severity tier assigned to a measurement. -/
inductive Tier
  | green
  | yellow
  | red
deriving DecidableEq, Repr

/-- Size bucket used by the Arm Circumference categorical rule. -/
inductive SizeCategory
  | small
  | medium
  | large
deriving DecidableEq, Repr

/-- The five measurements handled by the script, in the insertion order of the
`measure_to_variable` dictionary. -/
inductive Measure
  | sternalNotch
  | height
  | weight
  | waistCirc
  | armCirc
deriving DecidableEq, Repr

/-- Display name of a measure, as used for dictionary keys and reports. -/
def measureName : Measure → String
  | .sternalNotch => "Sternal Notch"
  | .height => "Height"
  | .weight => "Weight"
  | .waistCirc => "Waist Circumference"
  | .armCirc => "Arm Circumference"

/-- Display name of a tier, as stored in the categories summary string. -/
def tierName : Tier → String
  | .green => "Green"
  | .yellow => "Yellow"
  | .red => "Red"

/-- Iteration order of the classification loop: the insertion order of the
`measure_to_variable` dictionary. -/
def measureOrder : List Measure :=
  [.sternalNotch, .height, .weight, .waistCirc, .armCirc]

/-- One row of the Visit 1 baseline table (`visit1_df`), with the five
measurement columns used by `measure_to_column`. -/
structure Visit1Row where
  record_id : String
  phy_sternal : ℚ
  phy_height_inch : ℚ
  phy_weight_lb : ℚ
  phy_waist_circ : ℚ
  phy_arm : ℚ
deriving DecidableEq, Repr

/-- The raw form input of one submission.  The text fields hold the values
after the `.strip()` applied by the script at widget read time. -/
structure FormInput where
  mode : Mode
  recId : String
  coordinator : String
  remeasuredBy : String
  sternal : String
  height : String
  weight : String
  waist : String
  arm : String
deriving DecidableEq, Repr

/-- The five measurement fields after the float-conversion block
(`None` for an empty field). -/
structure ParsedFields where
  sternal : Option ℚ
  height : Option ℚ
  weight : Option ℚ
  waist : Option ℚ
  arm : Option ℚ
deriving DecidableEq, Repr

/-- A spreadsheet cell: a string, a number, or Python `None`. -/
inductive Cell
  | str (s : String)
  | num (q : ℚ)
  | null
deriving DecidableEq, Repr

/-- One row of the displayed results table:
measure, category (defaulting to Green), Visit 1 value, Visit 2 value. -/
structure ResultRow where
  measure : Measure
  category : Tier
  visit1 : ℚ
  visit2 : ℚ
deriving DecidableEq, Repr

/-- One row of the flagged-measurement table embedded in the alert email:
1-based serial number, measure, category, Visit 1 value, Visit 2 value
(the Visit 2 value is whatever `measure_to_variable` holds for the measure). -/
structure FlaggedEntry where
  serial : Nat
  measure : Measure
  category : Tier
  visit1 : ℚ
  visit2 : Option ℚ
deriving DecidableEq, Repr

/-- An alert email.  The HTML formatting of the body is abstracted: the body is
represented by the record id, the coordinator and the rows of the
flagged-measurement table it contains. -/
structure Email where
  subject : String
  recipient : String
  bodyRecId : String
  bodyCoordinator : String
  flagged : List FlaggedEntry
deriving DecidableEq, Repr

/-- Outcome of one submission.  The non-`done` constructors cover the paths
where the script stops (`st.stop`) or reports a missing baseline, plus the
exception outcome of the classification loop; since numpy division does not
raise, no step errors and `divisionError` is never produced.  No non-`done`
outcome appends a row or sends an email. -/
inductive Outcome
  | invalidInput
  | noBaseline
  | divisionError
  | done (row : List Cell) (results : List ResultRow) (emails : List Email)
deriving DecidableEq, Repr

/-- Rows appended to the spreadsheet by an outcome. -/
def rowsOf : Outcome → List (List Cell)
  | .done row _ _ => [row]
  | _ => []

/-- Emails dispatched by an outcome. -/
def emailsOf : Outcome → List Email
  | .done _ _ emails => emails
  | _ => []

/-- Value of a list of decimal digit characters. -/
def natOfDigits (cs : List Char) : Nat :=
  cs.foldl (fun n c => 10 * n + (c.toNat - 48)) 0

/-- Model of CPython float() on an unsigned decimal literal: digits with at
most one decimal point and at least one digit.  Exponents, infinities, NaN and
digit-group underscores are outside the model. -/
def parseUnsigned (cs : List Char) : Option ℚ :=
  let intPart := cs.takeWhile (fun c => c != '.')
  let rest := cs.dropWhile (fun c => c != '.')
  match rest with
  | [] =>
    if intPart.all Char.isDigit && !intPart.isEmpty then
      some (natOfDigits intPart)
    else none
  | _ :: fracPart =>
    if intPart.all Char.isDigit && fracPart.all Char.isDigit &&
        (!intPart.isEmpty || !fracPart.isEmpty) then
      some ((natOfDigits intPart : ℚ) + (natOfDigits fracPart : ℚ) / 10 ^ fracPart.length)
    else none

/-- Model of CPython float() on a stripped string: an optional sign followed by
an unsigned decimal literal. -/
def parseFloat (s : String) : Option ℚ :=
  match s.toList with
  | '-' :: rest => (parseUnsigned rest).map (fun q => -q)
  | '+' :: rest => parseUnsigned rest
  | cs => parseUnsigned cs

/-- One measurement field of the conversion block
`float(x) if x else None` inside `try`: an empty field is skipped (`None`),
anything else must parse as a float or the submission errors out. -/
def parseField (s : String) : Except Unit (Option ℚ) :=
  if s = "" then .ok none
  else
    match parseFloat s with
    | some q => .ok (some q)
    | none => .error ()

/-- The whole float-conversion `try` block over the five fields: the first
failure aborts all of them. -/
def parseAllFields (inp : FormInput) : Except Unit ParsedFields :=
  match parseField inp.sternal, parseField inp.height, parseField inp.weight,
      parseField inp.waist, parseField inp.arm with
  | .ok sn, .ok h, .ok w, .ok wc, .ok ac => .ok ⟨sn, h, w, wc, ac⟩
  | _, _, _, _, _ => .error ()

/-- Python truthiness of an optional float: `None` and `0.0` are falsy. -/
def truthy : Option ℚ → Bool
  | none => false
  | some q => decide (q ≠ 0)

/-- The BMI block: `bmi = (weight / (height ** 2)) * 703` guarded by
`if height and weight` (Python truthiness, so a zero value counts as absent). -/
def computeBmi (h w : Option ℚ) : Option ℚ :=
  match h, w with
  | some hv, some wv => if hv ≠ 0 ∧ wv ≠ 0 then some (wv / hv ^ 2 * 703) else none
  | _, _ => none

/-- Containment test `"-B" in rec_id` on the character list of the id. -/
def containsDashB : List Char → Bool
  | [] => false
  | [_] => false
  | c1 :: c2 :: rest => if c1 = '-' ∧ c2 = 'B' then true else containsDashB (c2 :: rest)

/-- Python `rec_id.replace("-B", "")`: delete every non-overlapping
occurrence of the substring, scanning left to right. -/
def replaceDashB : List Char → List Char
  | [] => []
  | [c] => [c]
  | c1 :: c2 :: rest =>
    if c1 = '-' ∧ c2 = 'B' then replaceDashB rest
    else c1 :: replaceDashB (c2 :: rest)

/-- Line 37 of the script:
`record_id = rec_id.replace("-B", "") if "-B" in rec_id else rec_id`. -/
def normalizeRecordId (s : String) : String :=
  if containsDashB s.toList then String.mk (replaceDashB s.toList) else s

/-- Model of the anchored regular expression `^CBP-\d{4}(-B)?$` used to
validate the record id. -/
def validRecId (s : String) : Bool :=
  match s.toList with
  | a :: b :: p :: dash :: d1 :: d2 :: d3 :: d4 :: rest =>
    decide (a = 'C' ∧ b = 'B' ∧ p = 'P' ∧ dash = '-') &&
      d1.isDigit && d2.isDigit && d3.isDigit && d4.isDigit &&
      decide (rest = [] ∨ rest = ['-', 'B'])
  | _ => false

/-- Specification-side description of the normalization: strip one trailing
`-B` suffix and nothing else.  Used to compare with `normalizeRecordId`. -/
def stripTrailingB (s : String) : String :=
  if s.toList.reverse.take 2 = ['B', '-'] then
    String.mk (s.toList.reverse.drop 2).reverse
  else s

/-- Arm circumference size bucket:
Small for values up to 24, Medium over 24 up to 33, Large above 33. -/
def armCategory (x : ℚ) : SizeCategory :=
  if x ≤ 24 then .small
  else if 24 < x ∧ x ≤ 33 then .medium
  else .large

/-- A numpy float64 value as relevant to the weight deviation: a finite
rational, a signed infinity, or NaN. -/
inductive NpFloat
  | fin (q : ℚ)
  | posInf
  | negInf
  | nan
deriving DecidableEq, Repr

/-- numpy float division as reachable at line 114: an exact quotient for a
nonzero divisor; for a zero divisor a signed infinity (nonzero numerator) or
NaN (0/0), emitted with a RuntimeWarning rather than an exception. -/
def npDiv (x y : ℚ) : NpFloat :=
  if y = 0 then
    if x = 0 then .nan else if 0 < x then .posInf else .negInf
  else .fin (x / y)

/-- Absolute value on numpy floats: both infinities map to plus infinity and
NaN stays NaN. -/
def npAbs : NpFloat → NpFloat
  | .fin q => .fin (absQ q)
  | .posInf => .posInf
  | .negInf => .posInf
  | .nan => .nan

/-- Multiplication of a numpy float by a rational constant. -/
def npMul (v : NpFloat) (k : ℚ) : NpFloat :=
  match v with
  | .fin q => .fin (q * k)
  | .posInf => if 0 < k then .posInf else if k = 0 then .nan else .negInf
  | .negInf => if 0 < k then .negInf else if k = 0 then .nan else .posInf
  | .nan => .nan

/-- IEEE comparison `q < v`: true against plus infinity, false against minus
infinity, and false against NaN. -/
def npLtB (q : ℚ) : NpFloat → Bool
  | .fin x => decide (q < x)
  | .posInf => true
  | .negInf => false
  | .nan => false

/-- IEEE comparison `q <= v`. -/
def npLeB (q : ℚ) : NpFloat → Bool
  | .fin x => decide (q ≤ x)
  | .posInf => true
  | .negInf => false
  | .nan => false

/-- IEEE comparison `v <= q`. -/
def npLeB' : NpFloat → ℚ → Bool
  | .fin x, q => decide (x ≤ q)
  | .posInf, _ => false
  | .negInf, _ => true
  | .nan, _ => false

/-- The Weight arm of the if/elif chain (lines 126-129) evaluated on a numpy
deviation: `diff > 4` gives Red, `3 <= diff <= 4` gives Yellow, otherwise no
assignment.  Plus infinity exceeds every bound and NaN fails every
comparison. -/
def weightChainNp (diff : NpFloat) : Option Tier :=
  if npLtB 4 diff then some .red
  else if npLeB 3 diff && npLeB' diff 4 then some .yellow
  else none

/-- The if/elif classification chain of the loop body, taking the measure, the
two raw values and the already-computed deviation.  `none` means no category
is assigned (the dictionary keeps no entry and the display defaults Green). -/
def classifyChain (m : Measure) (v1 v2 diff : ℚ) : Option Tier :=
  if m = .sternalNotch ∧ diff > 2 then some .red
  else if m = .sternalNotch ∧ 3 / 2 ≤ diff ∧ diff ≤ 2 then some .yellow
  else if m = .height ∧ diff > 2 then some .red
  else if m = .height ∧ 1 ≤ diff ∧ diff ≤ 2 then some .yellow
  else if m = .weight ∧ diff > 4 then some .red
  else if m = .weight ∧ 3 ≤ diff ∧ diff ≤ 4 then some .yellow
  else if m = .waistCirc ∧ diff > 13 / 2 then some .red
  else if m = .waistCirc ∧ 4 ≤ diff ∧ diff ≤ 13 / 2 then some .yellow
  else if m = .armCirc then
    if armCategory v1 ≠ armCategory v2 then some .red else none
  else none

/-- One iteration of the classification loop for a measure present in the
current visit: compute the deviation, then run the chain.  For Weight the
deviation divides numpy scalars (the Visit 1 value is pandas `.values[0]`),
so a zero baseline gives an infinity or NaN instead of raising.  The `Except`
channel models a Python exception escaping the loop; with these semantics no
step errors, so it is never used. -/
def classifyStep (m : Measure) (v1 v2 : ℚ) : Except Unit (Option Tier) :=
  match m with
  | .weight => .ok (weightChainNp (npMul (npAbs (npDiv (v2 - v1) v1)) 100))
  | .sternalNotch => .ok (classifyChain .sternalNotch v1 v2 (absQ (v2 - v1)))
  | .height => .ok (classifyChain .height v1 v2 (absQ (v2 - v1)))
  | .waistCirc => .ok (classifyChain .waistCirc v1 v2 (absQ (v2 - v1)))
  | .armCirc => .ok (classifyChain .armCirc v1 v2 (absQ (v2 - v1)))

/-- The tier shown for an evaluated measure: the assigned category if any,
else Green (`categories.get(measure, 'Green')`). -/
def displayTier (m : Measure) (v1 v2 : ℚ) : Except Unit Tier :=
  (classifyStep m v1 v2).map (fun a => a.getD Tier.green)

/-- Visit 1 value of a measure, through the `measure_to_column` mapping. -/
def baselineValue (r : Visit1Row) : Measure → ℚ
  | .sternalNotch => r.phy_sternal
  | .height => r.phy_height_inch
  | .weight => r.phy_weight_lb
  | .waistCirc => r.phy_waist_circ
  | .armCirc => r.phy_arm

/-- Visit 2 value of a measure, through the `measure_to_variable` mapping. -/
def measureVal (pf : ParsedFields) : Measure → Option ℚ
  | .sternalNotch => pf.sternal
  | .height => pf.height
  | .weight => pf.weight
  | .waistCirc => pf.waist
  | .armCirc => pf.arm

/-- The classification loop over a list of measures: skips measures absent
from the current visit, aborts on a raised exception, and otherwise collects
the assigned categories (in insertion order) and the display rows. -/
def classifyLoop (r : Visit1Row) (vals : Measure → Option ℚ) :
    List Measure → Except Unit (List (Measure × Tier) × List ResultRow)
  | [] => .ok ([], [])
  | m :: ms =>
    match vals m with
    | none => classifyLoop r vals ms
    | some c =>
      match classifyStep m (baselineValue r m) c with
      | .error e => .error e
      | .ok assign =>
        match classifyLoop r vals ms with
        | .error e => .error e
        | .ok (cats, res) =>
          .ok (match assign with
               | some t => (m, t) :: cats
               | none => cats,
               ⟨m, assign.getD Tier.green, baselineValue r m, c⟩ :: res)

/-- The full classification loop over the five measures. -/
def classifyAll (r : Visit1Row) (vals : Measure → Option ℚ) :
    Except Unit (List (Measure × Tier) × List ResultRow) :=
  classifyLoop r vals measureOrder

/-- The categories summary string:
`", ".join(f"{k}: {v}" for ...)` over the categories dictionary. -/
def categoriesString : List (Measure × Tier) → String
  | [] => ""
  | [p] => measureName p.1 ++ ": " ++ tierName p.2
  | p :: rest => measureName p.1 ++ ": " ++ tierName p.2 ++ ", " ++ categoriesString rest

/-- Cell stored for an optional numeric value (`None` becomes an empty cell). -/
def optCell : Option ℚ → Cell
  | none => .null
  | some q => .num q

/-- The row appended to the spreadsheet in Comparison mode (line 161). -/
def comparisonRow (inp : FormInput) (pf : ParsedFields) (cats : List (Measure × Tier)) :
    List Cell :=
  [Cell.str inp.recId, Cell.str "Comparison", Cell.str inp.coordinator,
   optCell pf.sternal, optCell pf.height, optCell pf.weight,
   optCell (computeBmi pf.height pf.weight),
   optCell pf.waist, optCell pf.arm,
   Cell.str (categoriesString cats)]

/-- The row appended to the spreadsheet in Re-measure mode (line 214). -/
def remeasureRow (inp : FormInput) (pf : ParsedFields) : List Cell :=
  [Cell.str inp.recId, Cell.str "Re-measure", Cell.str inp.remeasuredBy,
   optCell pf.sternal, optCell pf.height, optCell pf.weight,
   optCell (computeBmi pf.height pf.weight),
   optCell pf.waist, optCell pf.arm]

/-- Rows of the flagged-measurement table of the alert email: the categories
dictionary entries with 1-based serial numbers and the two compared values. -/
def buildFlagged (r : Visit1Row) (pf : ParsedFields) (cats : List (Measure × Tier)) :
    List FlaggedEntry :=
  cats.enum.map (fun p => ⟨p.1 + 1, p.2.1, p.2.2, baselineValue r p.2.1, measureVal pf p.2.1⟩)

/-- The alert email: fixed recipient, subject built from the raw record id,
body holding the record id, the coordinator and the flagged table. -/
def alertEmail (inp : FormInput) (r : Visit1Row) (pf : ParsedFields)
    (cats : List (Measure × Tier)) : Email :=
  { subject := "Alert for Record ID: " ++ inp.recId
    recipient := "villagesresearch@gmail.com"
    bodyRecId := inp.recId
    bodyCoordinator := inp.coordinator
    flagged := buildFlagged r pf cats }

/-- Baseline lookup `visit1_df[visit1_df['record_id'] == record_id]` followed
by the `.empty` test and `.values[0]`: the first row with a matching id. -/
def lookupBaseline (v1 : List Visit1Row) (key : String) : Option Visit1Row :=
  (v1.filter (fun r => decide (r.record_id = key))).head?

/-- One full submission of the script, from the validations at the top through
the Submit branch, as a pure function of the form input and the baseline
table. -/
def runApp (inp : FormInput) (visit1 : List Visit1Row) : Outcome :=
  if inp.recId ≠ "" ∧ validRecId inp.recId = false then .invalidInput
  else if inp.mode = .comparison ∧ inp.coordinator = "Select a coordinator" then .invalidInput
  else if inp.mode = .remeasure ∧ inp.remeasuredBy = "Select a person" then .invalidInput
  else
    match parseAllFields inp with
    | .error _ => .invalidInput
    | .ok pf =>
      if (truthy pf.height && !truthy pf.weight) || (truthy pf.weight && !truthy pf.height)
      then .invalidInput
      else
        match inp.mode with
        | .comparison =>
          match lookupBaseline visit1 (normalizeRecordId inp.recId) with
          | none => .noBaseline
          | some v1row =>
            match classifyAll v1row (measureVal pf) with
            | .error _ => .divisionError
            | .ok (cats, res) =>
              .done (comparisonRow inp pf cats) res
                (if cats.any (fun p => decide (p.2 = Tier.red) || decide (p.2 = Tier.yellow))
                 then [alertEmail inp v1row pf cats] else [])
        | .remeasure => .done (remeasureRow inp pf) [] []

/-- Comparison submission entering height "0" and no weight. -/
def inpHeightZero : FormInput :=
  ⟨.comparison, "CBP-0001", "Alyssa", "", "", "0", "", "", ""⟩

/-- Baseline table for `inpHeightZero`. -/
def v1HeightZero : List Visit1Row := [⟨"CBP-0001", 20, 0, 150, 80, 28⟩]

/-- Re-measure submission entering height "0" and weight "0". -/
def inpBmiZero : FormInput :=
  ⟨.remeasure, "CBP-0002", "", "Mitch", "", "0", "0", "", ""⟩

/-- Comparison submission whose sternal notch deviates from baseline by 3. -/
def inpSternalRed : FormInput :=
  ⟨.comparison, "CBP-0003", "Sam", "", "23", "", "", "", ""⟩

/-- Baseline table for `inpSternalRed`. -/
def v1SternalRed : List Visit1Row := [⟨"CBP-0003", 20, 68, 150, 80, 28⟩]

/-- Comparison submission with a truthy height and a zero weight. -/
def inpHwMismatch : FormInput :=
  ⟨.comparison, "CBP-0005", "Eddie", "", "", "5", "0", "", ""⟩

/-- Comparison submission with an unparseable sternal notch field. -/
def inpBadFloat : FormInput :=
  ⟨.comparison, "CBP-0006", "Gianna", "", "abc", "", "", "", ""⟩

/-- Re-measure submission whose record id carries the -B suffix. -/
def inpSuffixB : FormInput :=
  ⟨.remeasure, "CBP-0023-B", "", "Dr. T", "", "", "", "", ""⟩

/-- Generic baseline row for classifier-level witnesses. -/
def rowBase : Visit1Row := ⟨"CBP-0009", 20, 68, 150, 80, 28⟩

/-- Baseline row whose weight column is zero. -/
def rowZeroWeight : Visit1Row := ⟨"CBP-0010", 20, 68, 0, 80, 28⟩

/-- Current-visit values with only the sternal notch present. -/
def valsSternalOnly : Measure → Option ℚ :=
  fun m => if m = .sternalNotch then some 23 else none

/-- Current-visit values with only the weight present. -/
def valsWeightOnly : Measure → Option ℚ :=
  fun m => if m = .weight then some 150 else none

/-- Comparison submission entering height and weight against the zero-weight
baseline row. -/
def inpWeightRed : FormInput :=
  ⟨.comparison, "CBP-0010", "Cyriah", "", "", "68", "150", "", ""⟩

/-- Row appended by the `inpSternalRed` submission. -/
def rowSternalRed : List Cell :=
  [.str "CBP-0003", .str "Comparison", .str "Sam", .num 23, .null, .null,
   .null, .null, .null, .str "Sternal Notch: Red"]

/-- Results table of the `inpSternalRed` submission. -/
def resSternalRed : List ResultRow := [⟨.sternalNotch, .red, 20, 23⟩]

/-- Alert emails of the `inpSternalRed` submission. -/
def emSternalRed : List Email :=
  [⟨"Alert for Record ID: CBP-0003", "villagesresearch@gmail.com", "CBP-0003", "Sam",
    [⟨1, .sternalNotch, .red, 20, some 23⟩]⟩]

/-- Row appended by the `inpSuffixB` submission. -/
def rowSuffixB : List Cell :=
  [.str "CBP-0023-B", .str "Re-measure", .str "Dr. T", .null, .null, .null,
   .null, .null, .null]

/-!  Helper lemmas. -/

lemma absQ_eq_abs (x : ℚ) : absQ x = |x| := by
  unfold absQ
  split_ifs with h
  · exact (abs_of_neg h).symm
  · exact (abs_of_nonneg (le_of_not_lt h)).symm

lemma digit_ne_B {c : Char} (h : c.isDigit = true) : c ≠ 'B' := by
  intro hc
  subst hc
  exact absurd h (by decide)

lemma digit_ne_dash {c : Char} (h : c.isDigit = true) : c ≠ '-' := by
  intro hc
  subst hc
  exact absurd h (by decide)

lemma classifyChain_sternal (v1 v2 d : ℚ) :
    classifyChain .sternalNotch v1 v2 d =
      if 2 < d then some .red else if 3 / 2 ≤ d ∧ d ≤ 2 then some .yellow else none := by
  simp [classifyChain]

lemma classifyChain_height (v1 v2 d : ℚ) :
    classifyChain .height v1 v2 d =
      if 2 < d then some .red else if 1 ≤ d ∧ d ≤ 2 then some .yellow else none := by
  simp [classifyChain]

lemma classifyChain_weight (v1 v2 d : ℚ) :
    classifyChain .weight v1 v2 d =
      if 4 < d then some .red else if 3 ≤ d ∧ d ≤ 4 then some .yellow else none := by
  simp [classifyChain]

lemma classifyChain_waist (v1 v2 d : ℚ) :
    classifyChain .waistCirc v1 v2 d =
      if 13 / 2 < d then some .red else if 4 ≤ d ∧ d ≤ 13 / 2 then some .yellow else none := by
  simp [classifyChain]

lemma classifyChain_arm (v1 v2 d : ℚ) :
    classifyChain .armCirc v1 v2 d =
      if armCategory v1 ≠ armCategory v2 then some .red else none := by
  simp [classifyChain]

lemma tierChar (lo hi d : ℚ) (t : Option Tier)
    (ht : t = if hi < d then some Tier.red else if lo ≤ d ∧ d ≤ hi then some Tier.yellow else none) :
    (t.getD Tier.green = Tier.yellow ↔ lo ≤ d ∧ d ≤ hi) ∧
    (t.getD Tier.green = Tier.red ↔ hi < d) ∧
    (t.getD Tier.green = Tier.green ↔ ¬(lo ≤ d ∧ d ≤ hi) ∧ ¬(hi < d)) := by
  subst ht
  split_ifs with h1 h2
  · refine ⟨⟨fun hc => absurd hc (by simp), fun hc => absurd h1 (not_lt.mpr hc.2)⟩,
      ⟨fun _ => h1, fun _ => rfl⟩, ⟨fun hc => absurd hc (by simp), fun hc => absurd h1 hc.2⟩⟩
  · exact ⟨⟨fun _ => h2, fun _ => rfl⟩, ⟨fun hc => absurd hc (by simp), fun hc => absurd hc h1⟩,
      ⟨fun hc => absurd hc (by simp), fun hc => absurd h2 hc.1⟩⟩
  · exact ⟨⟨fun hc => absurd hc (by simp), fun hc => absurd hc h2⟩,
      ⟨fun hc => absurd hc (by simp), fun hc => absurd hc h1⟩, ⟨fun _ => ⟨h2, h1⟩, fun _ => rfl⟩⟩

lemma classifyChain_not_green {m : Measure} {v1 v2 d : ℚ} {t : Tier}
    (h : classifyChain m v1 v2 d = some t) : t = .red ∨ t = .yellow := by
  have finish : ∀ x : Option Tier, x = some t →
      (∃ lo hi dd : ℚ, x = if hi < dd then some Tier.red
        else if lo ≤ dd ∧ dd ≤ hi then some Tier.yellow else none) ∨
      (∃ a b : SizeCategory, x = if a ≠ b then some Tier.red else none) →
      t = .red ∨ t = .yellow := by
    intro x hx hform
    rcases hform with ⟨lo, hi, dd, hfx⟩ | ⟨a, b, hfx⟩ <;>
      rw [hfx] at hx <;>
      split_ifs at hx <;>
        first
        | exact Or.inl (Option.some.inj hx).symm
        | exact Or.inr (Option.some.inj hx).symm
  cases m with
  | sternalNotch =>
    rw [classifyChain_sternal] at h
    exact finish _ h (Or.inl ⟨3 / 2, 2, d, rfl⟩)
  | height =>
    rw [classifyChain_height] at h
    exact finish _ h (Or.inl ⟨1, 2, d, rfl⟩)
  | weight =>
    rw [classifyChain_weight] at h
    exact finish _ h (Or.inl ⟨3, 4, d, rfl⟩)
  | waistCirc =>
    rw [classifyChain_waist] at h
    exact finish _ h (Or.inl ⟨4, 13 / 2, d, rfl⟩)
  | armCirc =>
    rw [classifyChain_arm] at h
    exact finish _ h (Or.inr ⟨armCategory v1, armCategory v2, rfl⟩)

lemma weightChainNp_not_green {v : NpFloat} {t : Tier}
    (h : weightChainNp v = some t) : t = .red ∨ t = .yellow := by
  unfold weightChainNp at h
  split_ifs at h <;>
    first
    | exact Or.inl (Option.some.inj h).symm
    | exact Or.inr (Option.some.inj h).symm

lemma classifyStep_some_tier {m : Measure} {v1 v2 : ℚ} {assign : Option Tier} {t : Tier}
    (h : classifyStep m v1 v2 = .ok assign) (ha : assign = some t) :
    t = .red ∨ t = .yellow := by
  subst ha
  cases m with
  | weight =>
    simp only [classifyStep, Except.ok.injEq] at h
    exact weightChainNp_not_green h
  | sternalNotch =>
    simp only [classifyStep, Except.ok.injEq] at h
    exact classifyChain_not_green h
  | height =>
    simp only [classifyStep, Except.ok.injEq] at h
    exact classifyChain_not_green h
  | waistCirc =>
    simp only [classifyStep, Except.ok.injEq] at h
    exact classifyChain_not_green h
  | armCirc =>
    simp only [classifyStep, Except.ok.injEq] at h
    exact classifyChain_not_green h

lemma classifyLoop_mem_tier (r : Visit1Row) (vals : Measure → Option ℚ) :
    ∀ (ms : List Measure) (cats : List (Measure × Tier)) (res : List ResultRow),
      classifyLoop r vals ms = .ok (cats, res) →
      ∀ p ∈ cats, p.2 = .red ∨ p.2 = .yellow := by
  intro ms
  induction ms with
  | nil =>
    intro cats res hl p hp
    simp only [classifyLoop, Except.ok.injEq, Prod.mk.injEq] at hl
    obtain ⟨h1, h2⟩ := hl
    subst h1
    exact absurd hp (by simp)
  | cons m ms ih =>
    intro cats res hl p hp
    simp only [classifyLoop] at hl
    cases hv : vals m with
    | none =>
      simp only [hv] at hl
      exact ih cats res hl p hp
    | some c =>
      simp only [hv] at hl
      cases hs : classifyStep m (baselineValue r m) c with
      | error e =>
        rw [hs] at hl
        exact Except.noConfusion hl
      | ok assign =>
        simp only [hs] at hl
        cases hrest : classifyLoop r vals ms with
        | error e =>
          rw [hrest] at hl
          exact Except.noConfusion hl
        | ok pr =>
          obtain ⟨cats', res'⟩ := pr
          simp only [hrest, Except.ok.injEq, Prod.mk.injEq] at hl
          obtain ⟨hcats, hres⟩ := hl
          subst hcats
          cases assign with
          | none => exact ih cats' res' hrest p hp
          | some t =>
            rcases List.mem_cons.mp hp with hph | hpt
            · subst hph
              exact classifyStep_some_tier hs rfl
            · exact ih cats' res' hrest p hpt

lemma classifyLoop_green_iff (r : Visit1Row) (vals : Measure → Option ℚ) :
    ∀ (ms : List Measure) (cats : List (Measure × Tier)) (res : List ResultRow),
      classifyLoop r vals ms = .ok (cats, res) →
      (cats = [] ↔ ∀ q ∈ res, q.category = .green) := by
  intro ms
  induction ms with
  | nil =>
    intro cats res hl
    simp only [classifyLoop, Except.ok.injEq, Prod.mk.injEq] at hl
    obtain ⟨h1, h2⟩ := hl
    subst h1
    subst h2
    simp
  | cons m ms ih =>
    intro cats res hl
    simp only [classifyLoop] at hl
    cases hv : vals m with
    | none =>
      simp only [hv] at hl
      exact ih cats res hl
    | some c =>
      simp only [hv] at hl
      cases hs : classifyStep m (baselineValue r m) c with
      | error e =>
        rw [hs] at hl
        exact Except.noConfusion hl
      | ok assign =>
        simp only [hs] at hl
        cases hrest : classifyLoop r vals ms with
        | error e =>
          rw [hrest] at hl
          exact Except.noConfusion hl
        | ok pr =>
          obtain ⟨cats', res'⟩ := pr
          simp only [hrest, Except.ok.injEq, Prod.mk.injEq] at hl
          obtain ⟨hcats, hres⟩ := hl
          subst hcats
          subst hres
          cases assign with
          | none =>
            simp only [List.mem_cons]
            constructor
            · intro hc q hq
              rcases hq with hq | hq
              · subst hq
                rfl
              · exact ((ih cats' res' hrest).mp hc) q hq
            · intro hall
              exact (ih cats' res' hrest).mpr (fun q hq => hall q (Or.inr hq))
          | some t =>
            have ht : t = .red ∨ t = .yellow := classifyStep_some_tier hs rfl
            have htg : t ≠ .green := by rcases ht with h | h <;> subst h <;> simp
            constructor
            · intro hc
              exact absurd hc (by simp)
            · intro hall
              exact absurd (hall ⟨m, t, baselineValue r m, c⟩ (by simp)) htg

lemma classifyLoop_skip (r : Visit1Row) (vals : Measure → Option ℚ) (m0 : Measure)
    (h0 : vals m0 = none) :
    ∀ (ms : List Measure) (cats : List (Measure × Tier)) (res : List ResultRow),
      classifyLoop r vals ms = .ok (cats, res) →
      (∀ p ∈ cats, p.1 ≠ m0) ∧ (∀ q ∈ res, q.measure ≠ m0) := by
  intro ms
  induction ms with
  | nil =>
    intro cats res hl
    simp only [classifyLoop, Except.ok.injEq, Prod.mk.injEq] at hl
    obtain ⟨h1, h2⟩ := hl
    subst h1
    subst h2
    simp
  | cons m ms ih =>
    intro cats res hl
    simp only [classifyLoop] at hl
    cases hv : vals m with
    | none =>
      simp only [hv] at hl
      exact ih cats res hl
    | some c =>
      have hm0 : m ≠ m0 := by
        intro he
        rw [he, h0] at hv
        cases hv
      simp only [hv] at hl
      cases hs : classifyStep m (baselineValue r m) c with
      | error e =>
        rw [hs] at hl
        exact Except.noConfusion hl
      | ok assign =>
        simp only [hs] at hl
        cases hrest : classifyLoop r vals ms with
        | error e =>
          rw [hrest] at hl
          exact Except.noConfusion hl
        | ok pr =>
          obtain ⟨cats', res'⟩ := pr
          simp only [hrest, Except.ok.injEq, Prod.mk.injEq] at hl
          obtain ⟨hcats, hres⟩ := hl
          subst hcats
          subst hres
          obtain ⟨ihc, ihr⟩ := ih cats' res' hrest
          refine ⟨?_, ?_⟩
          · cases assign with
            | none => exact ihc
            | some t =>
              intro p hp
              rcases List.mem_cons.mp hp with hph | hpt
              · subst hph
                exact hm0
              · exact ihc p hpt
          · intro q hq
            rcases List.mem_cons.mp hq with hqh | hqt
            · subst hqh
              exact hm0
            · exact ihr q hqt

lemma classifyLoop_res_display (r : Visit1Row) (vals : Measure → Option ℚ) :
    ∀ (ms : List Measure) (cats : List (Measure × Tier)) (res : List ResultRow),
      classifyLoop r vals ms = .ok (cats, res) →
      ∀ q ∈ res, displayTier q.measure q.visit1 q.visit2 = .ok q.category := by
  intro ms
  induction ms with
  | nil =>
    intro cats res hl q hq
    simp only [classifyLoop, Except.ok.injEq, Prod.mk.injEq] at hl
    obtain ⟨h1, h2⟩ := hl
    subst h2
    exact absurd hq (by simp)
  | cons m ms ih =>
    intro cats res hl q hq
    simp only [classifyLoop] at hl
    cases hv : vals m with
    | none =>
      simp only [hv] at hl
      exact ih cats res hl q hq
    | some c =>
      simp only [hv] at hl
      cases hs : classifyStep m (baselineValue r m) c with
      | error e =>
        rw [hs] at hl
        exact Except.noConfusion hl
      | ok assign =>
        simp only [hs] at hl
        cases hrest : classifyLoop r vals ms with
        | error e =>
          rw [hrest] at hl
          exact Except.noConfusion hl
        | ok pr =>
          obtain ⟨cats', res'⟩ := pr
          simp only [hrest, Except.ok.injEq, Prod.mk.injEq] at hl
          obtain ⟨hcats, hres⟩ := hl
          subst hres
          rcases List.mem_cons.mp hq with hqh | hqt
          · subst hqh
            simp [displayTier, hs, Except.map]
          · exact ih cats' res' hrest q hqt

lemma classifyStep_isOk (m : Measure) (v1 v2 : ℚ) :
    ∃ a, classifyStep m v1 v2 = .ok a := by
  cases m <;> exact ⟨_, rfl⟩

lemma classifyLoop_total (r : Visit1Row) (vals : Measure → Option ℚ) :
    ∀ ms : List Measure, ∃ pr, classifyLoop r vals ms = .ok pr := by
  intro ms
  induction ms with
  | nil => exact ⟨([], []), rfl⟩
  | cons m ms ih =>
    obtain ⟨pr, hpr⟩ := ih
    obtain ⟨cats, res⟩ := pr
    cases hv : vals m with
    | none => exact ⟨(cats, res), by simp [classifyLoop, hv, hpr]⟩
    | some c =>
      obtain ⟨assign, hs⟩ := classifyStep_isOk m (baselineValue r m) c
      cases assign with
      | none =>
        exact ⟨(cats, ⟨m, Tier.green, baselineValue r m, c⟩ :: res),
          by simp [classifyLoop, hv, hs, hpr]⟩
      | some t =>
        exact ⟨((m, t) :: cats, ⟨m, t, baselineValue r m, c⟩ :: res),
          by simp [classifyLoop, hv, hs, hpr]⟩

lemma classifyLoop_mem_of_assigned (r : Visit1Row) (vals : Measure → Option ℚ)
    (m : Measure) (c : ℚ) (t : Tier) (hv : vals m = some c)
    (hs : classifyStep m (baselineValue r m) c = .ok (some t)) :
    ∀ (ms : List Measure) (cats : List (Measure × Tier)) (res : List ResultRow),
      m ∈ ms → classifyLoop r vals ms = .ok (cats, res) → (m, t) ∈ cats := by
  intro ms
  induction ms with
  | nil =>
    intro cats res hm _
    exact absurd hm (by simp)
  | cons m' ms ih =>
    intro cats res hm hl
    simp only [classifyLoop] at hl
    by_cases hmm : m' = m
    · subst hmm
      simp only [hv] at hl
      simp only [hs] at hl
      cases hrest : classifyLoop r vals ms with
      | error e =>
        rw [hrest] at hl
        exact Except.noConfusion hl
      | ok pr =>
        obtain ⟨cats', res'⟩ := pr
        simp only [hrest, Except.ok.injEq, Prod.mk.injEq] at hl
        obtain ⟨hcats, hres⟩ := hl
        subst hcats
        exact List.mem_cons_self _ _
    · have hm2 : m ∈ ms := by
        rcases List.mem_cons.mp hm with h | h
        · exact absurd h.symm hmm
        · exact h
      cases hv' : vals m' with
      | none =>
        simp only [hv'] at hl
        exact ih cats res hm2 hl
      | some c2 =>
        simp only [hv'] at hl
        cases hs2 : classifyStep m' (baselineValue r m') c2 with
        | error e =>
          rw [hs2] at hl
          exact Except.noConfusion hl
        | ok assign =>
          simp only [hs2] at hl
          cases hrest : classifyLoop r vals ms with
          | error e =>
            rw [hrest] at hl
            exact Except.noConfusion hl
          | ok pr =>
            obtain ⟨cats', res'⟩ := pr
            simp only [hrest, Except.ok.injEq, Prod.mk.injEq] at hl
            obtain ⟨hcats, hres⟩ := hl
            subst hcats
            cases assign with
            | none => exact ih cats' res' hm2 hrest
            | some t2 => exact List.mem_cons_of_mem _ (ih cats' res' hm2 hrest)

lemma runApp_done_inv {inp : FormInput} {v1 : List Visit1Row} {row : List Cell}
    {res : List ResultRow} {em : List Email}
    (h : runApp inp v1 = .done row res em) :
    ∃ pf, parseAllFields inp = .ok pf ∧
      ((inp.mode = .comparison ∧ ∃ v1row cats,
          lookupBaseline v1 (normalizeRecordId inp.recId) = some v1row ∧
          classifyAll v1row (measureVal pf) = .ok (cats, res) ∧
          row = comparisonRow inp pf cats ∧
          em = (if cats.any (fun p => decide (p.2 = Tier.red) || decide (p.2 = Tier.yellow))
                then [alertEmail inp v1row pf cats] else [])) ∨
        (inp.mode = .remeasure ∧ res = [] ∧ em = [] ∧ row = remeasureRow inp pf)) := by
  unfold runApp at h
  split_ifs at h with h1 h2 h3
  cases hpf : parseAllFields inp with
  | error e =>
    simp only [hpf] at h
    exact Outcome.noConfusion h
  | ok pf =>
    simp only [hpf] at h
    split_ifs at h with hxor
    cases hm : inp.mode with
    | comparison =>
      simp only [hm] at h
      cases hlk : lookupBaseline v1 (normalizeRecordId inp.recId) with
      | none =>
        simp only [hlk] at h
        exact Outcome.noConfusion h
      | some v1row =>
        simp only [hlk] at h
        cases hcl : classifyAll v1row (measureVal pf) with
        | error e =>
          simp only [hcl] at h
          exact Outcome.noConfusion h
        | ok pr =>
          obtain ⟨cats, res'⟩ := pr
          simp only [hcl] at h
          rw [Outcome.done.injEq] at h
          obtain ⟨hrow, hres, hem⟩ := h
          subst hres
          exact ⟨pf, rfl, Or.inl ⟨rfl, v1row, cats, rfl, hcl, hrow.symm, hem.symm⟩⟩
    | remeasure =>
      simp only [hm] at h
      rw [Outcome.done.injEq] at h
      obtain ⟨hrow, hres, hem⟩ := h
      exact ⟨pf, rfl, Or.inr ⟨rfl, hres.symm, hem.symm, hrow.symm⟩⟩

lemma displayTier_eq (m : Measure) (b c : ℚ) (hm : m ≠ .weight) :
    displayTier m b c = .ok ((classifyChain m b c (absQ (c - b))).getD Tier.green) := by
  cases m
  case weight => exact absurd rfl hm
  all_goals rfl

lemma weightChainNp_fin (v1 v2 d : ℚ) :
    weightChainNp (.fin d) = classifyChain .weight v1 v2 d := by
  rw [classifyChain_weight]
  simp only [weightChainNp, npLtB, npLeB, npLeB', Bool.and_eq_true, decide_eq_true_eq]

lemma displayTier_weight (b c : ℚ) (hb : b ≠ 0) :
    displayTier .weight b c =
      .ok ((classifyChain .weight b c (absQ ((c - b) / b) * 100)).getD Tier.green) := by
  have hdiv : npDiv (c - b) b = .fin ((c - b) / b) := by
    simp [npDiv, hb]
  simp [displayTier, classifyStep, hdiv, npAbs, npMul, Except.map,
    weightChainNp_fin b c (absQ ((c - b) / b) * 100)]

/-- Claim C1: for a Comparison submission with baseline value B and current
value C present, the numeric measures are tiered by the table of section 4.3:
the deviation is the absolute difference for Sternal Notch, Height and Waist
Circumference and the absolute percent difference (divided by B) for Weight;
Yellow exactly on the closed intervals [1.5, 2], [1, 2], [4, 6.5] and [3, 4]
respectively, Red exactly strictly above the Yellow upper bound, and Green
otherwise. -/
theorem numericTierTable (b c : ℚ) :
    ((displayTier .sternalNotch b c = .ok .yellow ↔ 3 / 2 ≤ |c - b| ∧ |c - b| ≤ 2) ∧
      (displayTier .sternalNotch b c = .ok .red ↔ 2 < |c - b|) ∧
      (displayTier .sternalNotch b c = .ok .green ↔
        ¬(3 / 2 ≤ |c - b| ∧ |c - b| ≤ 2) ∧ ¬(2 < |c - b|))) ∧
    ((displayTier .height b c = .ok .yellow ↔ 1 ≤ |c - b| ∧ |c - b| ≤ 2) ∧
      (displayTier .height b c = .ok .red ↔ 2 < |c - b|) ∧
      (displayTier .height b c = .ok .green ↔
        ¬(1 ≤ |c - b| ∧ |c - b| ≤ 2) ∧ ¬(2 < |c - b|))) ∧
    ((displayTier .waistCirc b c = .ok .yellow ↔ 4 ≤ |c - b| ∧ |c - b| ≤ 13 / 2) ∧
      (displayTier .waistCirc b c = .ok .red ↔ 13 / 2 < |c - b|) ∧
      (displayTier .waistCirc b c = .ok .green ↔
        ¬(4 ≤ |c - b| ∧ |c - b| ≤ 13 / 2) ∧ ¬(13 / 2 < |c - b|))) ∧
    (b ≠ 0 →
      ((displayTier .weight b c = .ok .yellow ↔
          3 ≤ |(c - b) / b| * 100 ∧ |(c - b) / b| * 100 ≤ 4) ∧
        (displayTier .weight b c = .ok .red ↔ 4 < |(c - b) / b| * 100) ∧
        (displayTier .weight b c = .ok .green ↔
          ¬(3 ≤ |(c - b) / b| * 100 ∧ |(c - b) / b| * 100 ≤ 4) ∧
            ¬(4 < |(c - b) / b| * 100)))) ∧
    (∀ (r : Visit1Row) (vals : Measure → Option ℚ) (cats : List (Measure × Tier))
      (res : List ResultRow), classifyAll r vals = .ok (cats, res) →
      ∀ q ∈ res, displayTier q.measure q.visit1 q.visit2 = .ok q.category) := by
  refine ⟨?_, ?_, ?_, fun hb => ?_,
    fun r vals cats res hall q hq => classifyLoop_res_display r vals measureOrder cats res hall q hq⟩
  · rw [displayTier_eq .sternalNotch b c (by simp), absQ_eq_abs]
    simp only [Except.ok.injEq]
    exact tierChar (3 / 2) 2 |c - b| _ (classifyChain_sternal b c |c - b|)
  · rw [displayTier_eq .height b c (by simp), absQ_eq_abs]
    simp only [Except.ok.injEq]
    exact tierChar 1 2 |c - b| _ (classifyChain_height b c |c - b|)
  · rw [displayTier_eq .waistCirc b c (by simp), absQ_eq_abs]
    simp only [Except.ok.injEq]
    exact tierChar 4 (13 / 2) |c - b| _ (classifyChain_waist b c |c - b|)
  · rw [displayTier_weight b c hb, absQ_eq_abs]
    simp only [Except.ok.injEq]
    exact tierChar 3 4 (|(c - b) / b| * 100) _ (classifyChain_weight b c (|(c - b) / b| * 100))

/-- Witness for C1: a weight going from baseline 100 to 103 is a 3 percent
deviation, the Yellow lower bound, so the tier is Yellow. -/
theorem numericTierTable_witness :
    (100 : ℚ) ≠ 0 ∧ displayTier .weight 100 103 = .ok .yellow := by
  have hb : (100 : ℚ) ≠ 0 := by norm_num
  have hv : |((103 : ℚ) - 100) / 100| * 100 = 3 := by
    rw [show ((103 : ℚ) - 100) / 100 = 3 / 100 by norm_num]
    rw [abs_of_nonneg (by norm_num : (0 : ℚ) ≤ 3 / 100)]
    norm_num
  exact ⟨hb, ((numericTierTable 100 103).2.2.2.1 hb).1.mpr (by rw [hv]; norm_num)⟩

/-- Claim C2: for Arm Circumference, both values are bucketed independently
into Small (at most 24), Medium (over 24 up to 33) and Large (over 33); the
tier is Red exactly when the buckets differ, Green exactly when they agree,
and never Yellow. -/
theorem armCircCategorical (b c x : ℚ) :
    (armCategory x = .small ↔ x ≤ 24) ∧
    (armCategory x = .medium ↔ 24 < x ∧ x ≤ 33) ∧
    (armCategory x = .large ↔ 33 < x) ∧
    (displayTier .armCirc b c = .ok .red ↔ armCategory b ≠ armCategory c) ∧
    (displayTier .armCirc b c = .ok .green ↔ armCategory b = armCategory c) ∧
    displayTier .armCirc b c ≠ .ok .yellow := by
  have hdisp : displayTier .armCirc b c =
      .ok ((if armCategory b ≠ armCategory c then some Tier.red else none).getD Tier.green) := by
    rw [displayTier_eq .armCirc b c (by simp), classifyChain_arm]
  refine ⟨?_, ?_, ?_, ?_, ?_, ?_⟩
  · unfold armCategory
    split_ifs with h1 h2
    · exact ⟨fun _ => h1, fun _ => rfl⟩
    · exact ⟨fun hc => absurd hc (by simp), fun hc => absurd hc h1⟩
    · exact ⟨fun hc => absurd hc (by simp), fun hc => absurd hc h1⟩
  · unfold armCategory
    split_ifs with h1 h2
    · exact ⟨fun hc => absurd hc (by simp), fun hc => absurd h1 (not_le.mpr hc.1)⟩
    · exact ⟨fun _ => h2, fun _ => rfl⟩
    · exact ⟨fun hc => absurd hc (by simp), fun hc => absurd hc h2⟩
  · unfold armCategory
    split_ifs with h1 h2
    · exact ⟨fun hc => absurd hc (by simp), fun hc => absurd h1 (by linarith)⟩
    · exact ⟨fun hc => absurd hc (by simp), fun hc => absurd hc (not_lt.mpr h2.2)⟩
    · have h33 : 33 < x := by
        rcases not_and_or.mp h2 with h | h
        · exact absurd (not_le.mp h1) h
        · exact not_le.mp h
      exact ⟨fun _ => h33, fun _ => rfl⟩
  · rw [hdisp]
    by_cases he : armCategory b = armCategory c <;> simp [he]
  · rw [hdisp]
    by_cases he : armCategory b = armCategory c <;> simp [he]
  · rw [hdisp]
    by_cases he : armCategory b = armCategory c <;> simp [he]

/-- Witness for C2: baseline 20 is Small, current 25 is Medium, so the tier
is Red. -/
theorem armCircCategorical_witness :
    displayTier .armCirc 20 25 = .ok .red ∧
    armCategory 20 = .small ∧ armCategory 25 = .medium := by
  refine ⟨(armCircCategorical 20 25 0).2.2.2.1.mpr (by decide), by decide, by decide⟩

/-- Claim C7: a measurement absent from the current submission is excluded
from both the categories map and the displayed results table. -/
theorem absentMeasureExcluded (r : Visit1Row) (vals : Measure → Option ℚ) (m : Measure)
    (h0 : vals m = none) (cats : List (Measure × Tier)) (res : List ResultRow)
    (hall : classifyAll r vals = .ok (cats, res)) :
    (∀ p ∈ cats, p.1 ≠ m) ∧ (∀ q ∈ res, q.measure ≠ m) :=
  classifyLoop_skip r vals m h0 measureOrder cats res hall

/-- Witness for C7: with only the sternal notch entered, the height measure
appears in neither output, despite its baseline value existing. -/
theorem absentMeasureExcluded_witness :
    valsSternalOnly .height = none ∧
    classifyAll rowBase valsSternalOnly =
      .ok ([(.sternalNotch, .red)], [⟨.sternalNotch, .red, 20, 23⟩]) ∧
    (∀ p ∈ [((Measure.sternalNotch : Measure), (Tier.red : Tier))], p.1 ≠ Measure.height) ∧
    (∀ q ∈ [(⟨.sternalNotch, .red, 20, 23⟩ : ResultRow)], q.measure ≠ Measure.height) := by
  have hcl : classifyAll rowBase valsSternalOnly =
      .ok ([(.sternalNotch, .red)], [⟨.sternalNotch, .red, 20, 23⟩]) := by
    with_unfolding_all rfl
  have h := absentMeasureExcluded rowBase valsSternalOnly .height rfl _ _ hcl
  exact ⟨rfl, hcl, h.1, h.2⟩

/-- Counterexample to Claim C10 as stated: the divisor at line 114 is a numpy
scalar, so a zero baseline weight does not raise.  This submission against a
zero-weight baseline completes, assigns Weight: Red from the infinite percent
deviation, appends its row, and sends the alert email — the claimed error
branch is unreachable and the classifier does produce a weight tier. -/
theorem weightZeroBaselineNoRaise :
    rowZeroWeight.phy_weight_lb = 0 ∧
    classifyAll rowZeroWeight valsWeightOnly =
      .ok ([(.weight, .red)], [⟨.weight, .red, 0, 150⟩]) ∧
    runApp inpWeightRed [rowZeroWeight] =
      .done [Cell.str "CBP-0010", Cell.str "Comparison", Cell.str "Cyriah",
        Cell.null, Cell.num 68, Cell.num 150, Cell.num (150 / 68 ^ 2 * 703),
        Cell.null, Cell.null, Cell.str "Weight: Red"]
        [⟨.height, .green, 68, 68⟩, ⟨.weight, .red, 0, 150⟩]
        [⟨"Alert for Record ID: CBP-0010", "villagesresearch@gmail.com", "CBP-0010", "Cyriah",
          [⟨1, .weight, .red, 0, some 150⟩]⟩] := by
  refine ⟨rfl, by with_unfolding_all rfl, by with_unfolding_all rfl⟩

/-- Claim C10 as amended: the weight percent deviation divides by the baseline
weight with no guard, but over numpy scalars, so a zero baseline does not
raise: a nonzero current weight yields an infinite deviation and the Red tier,
a 0/0 yields NaN and the Green default, and classification always completes. -/
theorem weightZeroBaselineTier (c : ℚ) (r : Visit1Row) (vals : Measure → Option ℚ)
    (hw : r.phy_weight_lb = 0) (hv : vals .weight = some c) (hc : c ≠ 0) :
    classifyStep .weight 0 c = .ok (some Tier.red) ∧
    displayTier .weight 0 c = .ok Tier.red ∧
    (∀ cats res, classifyAll r vals = .ok (cats, res) → (Measure.weight, Tier.red) ∈ cats) ∧
    (∃ pr, classifyAll r vals = .ok pr) ∧
    classifyStep .weight 0 0 = .ok none ∧ displayTier .weight 0 0 = .ok Tier.green := by
  have hstep : classifyStep .weight 0 c = .ok (some Tier.red) := by
    by_cases hcp : 0 < c <;>
      simp [classifyStep, npDiv, sub_zero, hc, hcp, npAbs, npMul, weightChainNp, npLtB]
  refine ⟨hstep, by simp [displayTier, hstep, Except.map], ?_,
    classifyLoop_total r vals measureOrder, ?_, ?_⟩
  · intro cats res hall
    have hsbase : classifyStep .weight (baselineValue r .weight) c = .ok (some Tier.red) := by
      have hb : baselineValue r .weight = 0 := hw
      rw [hb]
      exact hstep
    exact classifyLoop_mem_of_assigned r vals .weight c .red hv hsbase measureOrder cats res
      (by simp [measureOrder]) hall
  · simp [classifyStep, npDiv, npAbs, npMul, weightChainNp, npLtB, npLeB, npLeB']
  · simp [displayTier, classifyStep, npDiv, npAbs, npMul, weightChainNp, npLtB, npLeB,
      npLeB', Except.map]

/-- Witness for the amended C10: baseline weight 0 against current weight 150
gives the Red weight tier inside the classification output. -/
theorem weightZeroBaselineTier_witness :
    classifyStep .weight (0 : ℚ) 150 = .ok (some Tier.red) ∧
    (Measure.weight, Tier.red) ∈ [((Measure.weight : Measure), (Tier.red : Tier))] := by
  have h := weightZeroBaselineTier 150 rowZeroWeight valsWeightOnly rfl rfl (by norm_num)
  exact ⟨h.1, h.2.2.1 [(.weight, .red)] [⟨.weight, .red, 0, 150⟩] (by with_unfolding_all rfl)⟩


lemma containsDashB_cons_of_ne (c1 c2 : Char) (rest : List Char)
    (hne : ¬(c1 = '-' ∧ c2 = 'B')) :
    containsDashB (c1 :: c2 :: rest) = containsDashB (c2 :: rest) := by
  simp only [containsDashB]
  rw [if_neg hne]

lemma replaceDashB_cons_of_ne (c1 c2 : Char) (rest : List Char)
    (hne : ¬(c1 = '-' ∧ c2 = 'B')) :
    replaceDashB (c1 :: c2 :: rest) = c1 :: replaceDashB (c2 :: rest) := by
  simp only [replaceDashB]
  rw [if_neg hne]

/-- Claim C3: the alert email is dispatched exactly when the submission is a
Comparison whose results contain a non-Green tier; it goes to the fixed
recipient with subject built from the record id.  Aborted submissions and
Re-measure submissions dispatch nothing. -/
theorem alertDispatchIff (inp : FormInput) (v1 : List Visit1Row) (row : List Cell)
    (res : List ResultRow) (em : List Email)
    (h : runApp inp v1 = .done row res em) :
    (em ≠ [] ↔ (inp.mode = .comparison ∧ ∃ q ∈ res, q.category ≠ .green)) ∧
    ∀ e ∈ em, e.subject = "Alert for Record ID: " ++ inp.recId ∧
      e.recipient = "villagesresearch@gmail.com" ∧ e.flagged ≠ [] ∧
      ∀ f ∈ e.flagged, f.category = .red ∨ f.category = .yellow := by
  obtain ⟨pf, hpf, hcase⟩ := runApp_done_inv h
  rcases hcase with ⟨hm, v1row, cats, hlk, hcl, hrow, hem⟩ | ⟨hm, hres, hem, hrow⟩
  · have hmem := classifyLoop_mem_tier v1row (measureVal pf) measureOrder cats res hcl
    have hgiff := classifyLoop_green_iff v1row (measureVal pf) measureOrder cats res hcl
    by_cases hc : cats = []
    · have hemnil : em = [] := by
        rw [hem, hc]
        rfl
      refine ⟨⟨fun hne => absurd hemnil hne,
        fun hrhs => ?_⟩, fun e he => absurd (hemnil ▸ he) (by simp)⟩
      obtain ⟨_, q, hq, hqg⟩ := hrhs
      exact absurd ((hgiff.mp hc) q hq) hqg
    · have hany : cats.any (fun p => decide (p.2 = Tier.red) || decide (p.2 = Tier.yellow)) = true := by
        obtain ⟨p, hp⟩ := List.exists_mem_of_ne_nil cats hc
        refine List.any_eq_true.mpr ⟨p, hp, ?_⟩
        rcases hmem p hp with ht | ht <;> simp [ht]
      have hemone : em = [alertEmail inp v1row pf cats] := by
        rw [hem, hany]
        rfl
      refine ⟨⟨fun _ => ⟨hm, ?_⟩, fun _ => by rw [hemone]; simp⟩, fun e he => ?_⟩
      · have hnall : ¬ ∀ q ∈ res, q.category = Tier.green := fun hall => hc (hgiff.mpr hall)
        push_neg at hnall
        exact hnall
      · rw [hemone, List.mem_singleton] at he
        subst he
        refine ⟨rfl, rfl, ?_, ?_⟩
        · intro hf
          exact hc (List.length_eq_zero.mp (by simpa [alertEmail, buildFlagged] using congrArg List.length hf))
        · intro f hf
          rcases List.mem_map.mp hf with ⟨pr, hpr, rfl⟩
          have hsnd : pr.2 ∈ cats := by
            have h' := List.mem_map_of_mem Prod.snd hpr
            rwa [List.enum_map_snd] at h'
          exact hmem pr.2 hsnd
  · refine ⟨⟨fun hne => absurd hem hne, fun hrhs => ?_⟩, fun e he => absurd (hem ▸ he) (by simp)⟩
    have hmc := hrhs.1
    rw [hm] at hmc
    exact Mode.noConfusion hmc

/-- Witness for C3: a Comparison submission with a Red sternal notch sends one
alert email with the fixed subject and recipient. -/
theorem alertDispatchIff_witness :
    (emSternalRed ≠ [] ↔
      (inpSternalRed.mode = .comparison ∧ ∃ q ∈ resSternalRed, q.category ≠ Tier.green)) ∧
    ∀ e ∈ emSternalRed, e.subject = "Alert for Record ID: " ++ inpSternalRed.recId ∧
      e.recipient = "villagesresearch@gmail.com" ∧ e.flagged ≠ [] ∧
      ∀ f ∈ e.flagged, f.category = .red ∨ f.category = .yellow :=
  alertDispatchIff inpSternalRed v1SternalRed rowSternalRed resSternalRed emSternalRed
    (by with_unfolding_all rfl)

/-- Claim C9: every completed Comparison submission appends exactly the row
subject id, mode, coordinator, the five optional measurements with BMI in the
middle, and the comma-separated categories summary over the non-Green tiers. -/
theorem comparisonRowSchema (inp : FormInput) (v1 : List Visit1Row) (row : List Cell)
    (res : List ResultRow) (em : List Email) (hm : inp.mode = .comparison)
    (h : runApp inp v1 = .done row res em) :
    ∃ pf cats, parseAllFields inp = .ok pf ∧
      row = [Cell.str inp.recId, Cell.str "Comparison", Cell.str inp.coordinator,
        optCell pf.sternal, optCell pf.height, optCell pf.weight,
        optCell (computeBmi pf.height pf.weight), optCell pf.waist, optCell pf.arm,
        Cell.str (categoriesString cats)] ∧
      ∀ p ∈ cats, p.2 = Tier.red ∨ p.2 = Tier.yellow := by
  obtain ⟨pf, hpf, hcase⟩ := runApp_done_inv h
  rcases hcase with ⟨_, v1row, cats, hlk, hcl, hrow, hem⟩ | ⟨hm2, _, _, _⟩
  · exact ⟨pf, cats, hpf, by rw [hrow]; rfl,
      classifyLoop_mem_tier v1row (measureVal pf) measureOrder cats res hcl⟩
  · rw [hm] at hm2
    exact Mode.noConfusion hm2

/-- Witness for C9: the concrete Red-sternal-notch submission produces exactly
the ten-cell row with the summary string over the single Red entry. -/
theorem comparisonRowSchema_witness :
    ∃ pf cats, parseAllFields inpSternalRed = .ok pf ∧
      rowSternalRed = [Cell.str inpSternalRed.recId, Cell.str "Comparison",
        Cell.str inpSternalRed.coordinator, optCell pf.sternal, optCell pf.height,
        optCell pf.weight, optCell (computeBmi pf.height pf.weight), optCell pf.waist,
        optCell pf.arm, Cell.str (categoriesString cats)] ∧
      ∀ p ∈ cats, p.2 = Tier.red ∨ p.2 = Tier.yellow :=
  comparisonRowSchema inpSternalRed v1SternalRed rowSternalRed resSternalRed emSternalRed rfl
    (by with_unfolding_all rfl)

/-- Counterexample to Claim C4 as stated: entering height "0" with weight
absent leaves exactly one of the two fields present, yet the submission does
not fail: it classifies the height and appends a row. -/
theorem heightZeroNoFailFast :
    inpHeightZero.height = "0" ∧ inpHeightZero.weight = "" ∧
    parseField "0" = .ok (some 0) ∧ parseField "" = .ok none ∧
    runApp inpHeightZero v1HeightZero =
      .done [Cell.str "CBP-0001", Cell.str "Comparison", Cell.str "Alyssa",
        Cell.null, Cell.num 0, Cell.null, Cell.null, Cell.null, Cell.null, Cell.str ""]
        [⟨.height, .green, 0, 0⟩] [] ∧
    rowsOf (runApp inpHeightZero v1HeightZero) ≠ [] := by
  have hrun : runApp inpHeightZero v1HeightZero =
      .done [Cell.str "CBP-0001", Cell.str "Comparison", Cell.str "Alyssa",
        Cell.null, Cell.num 0, Cell.null, Cell.null, Cell.null, Cell.null, Cell.str ""]
        [⟨.height, .green, 0, 0⟩] [] := by
    with_unfolding_all rfl
  refine ⟨rfl, rfl, by with_unfolding_all rfl, rfl, hrun, ?_⟩
  rw [hrun]
  simp [rowsOf]

/-- Claim C4 as amended: the submission fails fast, with no row and no email,
exactly on the check the script actually performs, namely when exactly one of
the parsed height and weight is truthy (present and nonzero). -/
theorem truthyXorFailFast (inp : FormInput) (v1 : List Visit1Row) (pf : ParsedFields)
    (hpf : parseAllFields inp = .ok pf)
    (hxor : ((truthy pf.height && !truthy pf.weight) ||
        (truthy pf.weight && !truthy pf.height)) = true) :
    runApp inp v1 = .invalidInput ∧ rowsOf (runApp inp v1) = [] ∧
      emailsOf (runApp inp v1) = [] := by
  have hrun : runApp inp v1 = .invalidInput := by
    unfold runApp
    split_ifs with h1 h2 h3
    · rfl
    · rfl
    · rfl
    · simp only [hpf]
      rw [if_pos hxor]
  exact ⟨hrun, by rw [hrun]; rfl, by rw [hrun]; rfl⟩

/-- Witness for the amended C4: height 5 with weight 0 trips the truthiness
check and the submission aborts. -/
theorem truthyXorFailFast_witness :
    parseAllFields inpHwMismatch = .ok ⟨none, some 5, some 0, none, none⟩ ∧
    runApp inpHwMismatch [] = .invalidInput := by
  have hpf : parseAllFields inpHwMismatch = .ok ⟨none, some 5, some 0, none, none⟩ := by
    with_unfolding_all rfl
  exact ⟨hpf, (truthyXorFailFast inpHwMismatch [] _ hpf (by with_unfolding_all rfl)).1⟩

/-- Counterexample to Claim C5 as stated: the field "-5" is neither empty nor
a non-negative real, yet it is accepted (Python float() parses a sign). -/
theorem negativeValueAccepted :
    parseField "-5" = .ok (some (-5)) ∧ "-5" ≠ "" ∧
    parseFloat "-5" = some (-5) ∧ ((-5 : ℚ) < 0) := by
  refine ⟨by with_unfolding_all rfl, by decide, by with_unfolding_all rfl, by norm_num⟩

/-- Claim C5 as amended: a measurement field is accepted exactly when it is
empty or parses as a real number, of either sign; a parse failure aborts the
submission before any row or email. -/
theorem fieldAcceptanceAmended (s : String) (inp : FormInput) (v1 : List Visit1Row) :
    ((∃ v, parseField s = .ok v) ↔ (s = "" ∨ (parseFloat s).isSome = true)) ∧
    (parseAllFields inp = .error () → runApp inp v1 = .invalidInput ∧
      rowsOf (runApp inp v1) = [] ∧ emailsOf (runApp inp v1) = []) := by
  constructor
  · by_cases hs : s = ""
    · subst hs
      simp [parseField]
    · cases hp : parseFloat s with
      | none => simp [parseField, hs, hp]
      | some q => simp [parseField, hs, hp]
  · intro herr
    have hrun : runApp inp v1 = .invalidInput := by
      unfold runApp
      split_ifs with h1 h2 h3
      · rfl
      · rfl
      · rfl
      · simp only [herr]
    exact ⟨hrun, by rw [hrun]; rfl, by rw [hrun]; rfl⟩

/-- Witness for the amended C5: an unparseable field aborts the submission. -/
theorem fieldAcceptanceAmended_witness :
    parseAllFields inpBadFloat = .error () ∧ runApp inpBadFloat [] = .invalidInput := by
  have herr : parseAllFields inpBadFloat = .error () := by
    with_unfolding_all rfl
  exact ⟨herr, ((fieldAcceptanceAmended "-5" inpBadFloat []).2 herr).1⟩

/-- Counterexample to Claim C6 as stated: height "0" and weight "0" are both
present, yet no BMI is computed (Python truthiness treats 0.0 as absent). -/
theorem bmiZeroInputs :
    parseField "0" = .ok (some 0) ∧
    computeBmi (some 0) (some 0) = none ∧
    runApp inpBmiZero [] =
      .done [Cell.str "CBP-0002", Cell.str "Re-measure", Cell.str "Mitch",
        Cell.null, Cell.num 0, Cell.num 0, Cell.null, Cell.null, Cell.null] [] [] := by
  refine ⟨by with_unfolding_all rfl, by simp [computeBmi], by with_unfolding_all rfl⟩

/-- Claim C6 as amended: BMI is present exactly when both height and weight
are present with nonzero values, in which case it is weight over height
squared times 703; and no classified measure is named BMI. -/
theorem bmiPresenceAmended :
    (∀ h w : Option ℚ, ((computeBmi h w).isSome = true ↔ truthy h = true ∧ truthy w = true)) ∧
    (∀ hv wv : ℚ, hv ≠ 0 → wv ≠ 0 → computeBmi (some hv) (some wv) = some (wv / hv ^ 2 * 703)) ∧
    (∀ m : Measure, measureName m ≠ "BMI") := by
  refine ⟨?_, ?_, ?_⟩
  · intro h w
    cases h with
    | none => simp [computeBmi, truthy]
    | some hv =>
      cases w with
      | none => simp [computeBmi, truthy]
      | some wv =>
        by_cases h1 : hv = 0 <;> by_cases h2 : wv = 0 <;> simp [computeBmi, truthy, h1, h2]
  · intro hv wv h1 h2
    simp [computeBmi, h1, h2]
  · intro m
    cases m <;> decide

/-- Witness for the amended C6: 70 inches and 180 pounds give a BMI of about
25.83. -/
theorem bmiPresenceAmended_witness :
    computeBmi (some 70) (some 180) = some (180 / 70 ^ 2 * 703) ∧
    (180 : ℚ) / 70 ^ 2 * 703 = 126540 / 4900 ∧
    |(126540 : ℚ) / 4900 - 2583 / 100| ≤ 1 / 100 := by
  refine ⟨bmiPresenceAmended.2.1 70 180 (by norm_num) (by norm_num), by norm_num, ?_⟩
  rw [abs_le]
  constructor <;> norm_num

/-- Claim C8: a record id matching the CBP pattern has a trailing -B suffix
(and nothing else) stripped for the baseline lookup key, while the stored
row keeps the original id in its first cell. -/
theorem recIdNormalization (s : String) (hval : validRecId s = true) :
    normalizeRecordId s = stripTrailingB s ∧
    ∀ (inp : FormInput) (v1 : List Visit1Row) (row : List Cell) (res : List ResultRow)
      (em : List Email), inp.recId = s → runApp inp v1 = .done row res em →
      row.head? = some (Cell.str s) := by
  constructor
  · unfold validRecId at hval
    rcases hcs : s.toList with
        _ | ⟨a, _ | ⟨b, _ | ⟨p, _ | ⟨dsh, _ | ⟨d1, _ | ⟨d2, _ | ⟨d3, _ | ⟨d4, rest⟩⟩⟩⟩⟩⟩⟩⟩ <;>
      rw [hcs] at hval <;> try exact Bool.noConfusion hval
    simp only [Bool.and_eq_true, decide_eq_true_eq] at hval
    obtain ⟨⟨⟨⟨⟨⟨ha, hb, hp, hd⟩, h1⟩, h2⟩, h3⟩, h4⟩, hrest⟩ := hval
    subst ha
    subst hb
    subst hp
    subst hd
    rcases hrest with hrest | hrest <;> subst hrest
    · have hcontains : containsDashB s.toList = false := by
        rw [hcs]
        rw [containsDashB_cons_of_ne _ _ _ (by decide),
            containsDashB_cons_of_ne _ _ _ (by decide),
            containsDashB_cons_of_ne _ _ _ (by decide),
            containsDashB_cons_of_ne _ _ _ (fun hc => digit_ne_B h1 hc.2),
            containsDashB_cons_of_ne _ _ _ (fun hc => digit_ne_dash h1 hc.1),
            containsDashB_cons_of_ne _ _ _ (fun hc => digit_ne_dash h2 hc.1),
            containsDashB_cons_of_ne _ _ _ (fun hc => digit_ne_dash h3 hc.1)]
        rfl
      have hne : ¬(([d4, d3] : List Char) = ['B', '-']) := by
        intro hc
        injection hc with hx hy
        exact digit_ne_B h4 hx
      have hstrip : stripTrailingB s = s := by
        unfold stripTrailingB
        rw [hcs]
        rw [show (('C' :: 'B' :: 'P' :: '-' :: d1 :: d2 :: d3 :: d4 ::
            ([] : List Char)).reverse.take 2) = [d4, d3] from rfl]
        rw [if_neg hne]
      unfold normalizeRecordId
      rw [hcontains]
      simp [hstrip]
    · have hcontains : containsDashB s.toList = true := by
        rw [hcs]
        rw [containsDashB_cons_of_ne _ _ _ (by decide),
            containsDashB_cons_of_ne _ _ _ (by decide),
            containsDashB_cons_of_ne _ _ _ (by decide),
            containsDashB_cons_of_ne _ _ _ (fun hc => digit_ne_B h1 hc.2),
            containsDashB_cons_of_ne _ _ _ (fun hc => digit_ne_dash h1 hc.1),
            containsDashB_cons_of_ne _ _ _ (fun hc => digit_ne_dash h2 hc.1),
            containsDashB_cons_of_ne _ _ _ (fun hc => digit_ne_dash h3 hc.1),
            containsDashB_cons_of_ne _ _ _ (fun hc => digit_ne_dash h4 hc.1)]
        rfl
      have hrepl : replaceDashB s.toList = ['C', 'B', 'P', '-', d1, d2, d3, d4] := by
        rw [hcs]
        rw [replaceDashB_cons_of_ne _ _ _ (by decide),
            replaceDashB_cons_of_ne _ _ _ (by decide),
            replaceDashB_cons_of_ne _ _ _ (by decide),
            replaceDashB_cons_of_ne _ _ _ (fun hc => digit_ne_B h1 hc.2),
            replaceDashB_cons_of_ne _ _ _ (fun hc => digit_ne_dash h1 hc.1),
            replaceDashB_cons_of_ne _ _ _ (fun hc => digit_ne_dash h2 hc.1),
            replaceDashB_cons_of_ne _ _ _ (fun hc => digit_ne_dash h3 hc.1),
            replaceDashB_cons_of_ne _ _ _ (fun hc => digit_ne_dash h4 hc.1)]
        rfl
      have hstrip : stripTrailingB s = String.mk ['C', 'B', 'P', '-', d1, d2, d3, d4] := by
        unfold stripTrailingB
        rw [hcs]
        rw [show (('C' :: 'B' :: 'P' :: '-' :: d1 :: d2 :: d3 :: d4 :: '-' :: 'B' ::
            ([] : List Char)).reverse.take 2) = ['B', '-'] from rfl]
        rw [if_pos rfl]
        rfl
      unfold normalizeRecordId
      rw [hcontains]
      rw [if_pos rfl]
      rw [hrepl, hstrip]
  · intro inp v1 row res em hrec hdone
    obtain ⟨pf, hpf, hcase⟩ := runApp_done_inv hdone
    rcases hcase with ⟨_, v1row, cats, _, _, hrow, _⟩ | ⟨_, _, _, hrow⟩
    · rw [hrow, ← hrec]
      rfl
    · rw [hrow, ← hrec]
      rfl

/-- Witness for C8: CBP-0023-B normalizes to CBP-0023 for the lookup while
the stored row keeps CBP-0023-B verbatim. -/
theorem recIdNormalization_witness :
    validRecId "CBP-0023-B" = true ∧
    normalizeRecordId "CBP-0023-B" = stripTrailingB "CBP-0023-B" ∧
    stripTrailingB "CBP-0023-B" = "CBP-0023" ∧
    rowSuffixB.head? = some (Cell.str "CBP-0023-B") := by
  have hval : validRecId "CBP-0023-B" = true := by decide
  have h := recIdNormalization "CBP-0023-B" hval
  refine ⟨hval, h.1, by decide, ?_⟩
  exact h.2 inpSuffixB [] rowSuffixB [] [] rfl (by with_unfolding_all rfl)

end Casana
